import Mathlib

/-!
Shallow embedding of the translation-contribution statistics batch job of
`core/jobs/batch_jobs/suggestion_stats_computation_jobs.py`: the event
deriver `GenerateTranslationContributionStatsJob._generate_stats`, the
combiner `CombineStats` (`create_accumulator`, `add_input`,
`merge_accumulators`, `extract_output`), the model generator
`GenerateTranslationContributionStatsJob._generate_translation_contribution_model`,
and the join/count wiring of `GenerateTranslationContributionStatsJob.run`.
Python strings are modelled as lists of characters, Python `datetime.date`
values as triples of naturals, Python sets of dates as finite sets, and a
Python statement that can raise as an `Option` result (`none` embeds the
raised exception).
-/

/-- Python strings are modelled as lists of characters. -/
abbrev Str : Type := List Char

/-- Calendar date as held by a Python `datetime.date`: year, month, day. -/
structure Date where
  year : Nat
  month : Nat
  day : Nat
  deriving DecidableEq

/-- The accumulator domain object
`suggestion_registry.TranslationContributionStats`: three key fields, six
counters and the set of contribution dates.  Counters are naturals: they
start at zero and are only ever increased. -/
@[ext]
structure TranslationContributionStats where
  language_code : Str
  contributor_user_id : Str
  topic_id : Str
  submitted_translations_count : Nat
  submitted_translation_word_count : Nat
  accepted_translations_count : Nat
  accepted_translations_without_reviewer_edits_count : Nat
  accepted_translation_word_count : Nat
  rejected_translations_count : Nat
  rejected_translation_word_count : Nat
  contribution_dates : Finset Date
  deriving DecidableEq

/-- Modelled from the spec: the constant `suggestion_models.STATUS_ACCEPTED`
(the `suggestion_models` module is not among the embedded sources); the spec
requires a status value `ACCEPTED` distinct from `REJECTED`. -/
def STATUS_ACCEPTED : Str := "accepted".toList

/-- Modelled from the spec: the constant `suggestion_models.STATUS_REJECTED`
(the `suggestion_models` module is not among the embedded sources). -/
def STATUS_REJECTED : Str := "rejected".toList

/-- Modelled from the spec:
`suggestion_registry.TranslationContributionStats.create_default` (defined
outside the embedded sources) returns the zero-valued accumulator — all
counts 0, empty date set — with default (empty) key fields; the grouping
key is not passed to it. -/
def TranslationContributionStats.create_default :
    TranslationContributionStats :=
  { language_code := []
    contributor_user_id := []
    topic_id := []
    submitted_translations_count := 0
    submitted_translation_word_count := 0
    accepted_translations_count := 0
    accepted_translations_without_reviewer_edits_count := 0
    accepted_translation_word_count := 0
    rejected_translations_count := 0
    rejected_translation_word_count := 0
    contribution_dates := ∅ }

/-- Embedding of `CombineStats.create_accumulator`: returns
`TranslationContributionStats.create_default()`. -/
def create_accumulator : TranslationContributionStats :=
  TranslationContributionStats.create_default

/-- Split a character list at a one-character separator, as Python
`str.split(sep)` does: `n` occurrences of the separator give `n + 1`
(possibly empty) parts. -/
def splitOnChar (sep : Char) : Str → List Str
  | [] => [[]]
  | c :: rest =>
    if c = sep then [] :: splitOnChar sep rest
    else
      match splitOnChar sep rest with
      | [] => [[c]]
      | p :: ps => (c :: p) :: ps

/-- Decimal value of a digit-only, non-empty character list; `none` when
the list is empty or holds a non-digit character. -/
def parseDigits (l : Str) : Option Nat :=
  if l ≠ [] ∧ l.all Char.isDigit = true then
    some (l.foldl (fun n c => n * 10 + (c.toNat - 48)) 0)
  else none

/-- Leap-year rule of the proleptic Gregorian calendar used by
`datetime.date`. -/
def isLeapYear (y : Nat) : Bool :=
  (y % 4 == 0 && y % 100 != 0) || y % 400 == 0

/-- Number of days of a month in the calendar used by `datetime.date`. -/
def daysInMonth (y m : Nat) : Nat :=
  if m = 2 then (if isLeapYear y then 29 else 28)
  else if m = 4 ∨ m = 6 ∨ m = 9 ∨ m = 11 then 30
  else 31

/-- Embedding of `datetime.datetime.strptime(s, '%Y-%m-%d').date()` as used
by `CombineStats.add_input`: the year is exactly four digits and at least 1,
month and day are one or two digits, the month is 1..12 and the day fits the
month; `none` embeds the `ValueError` raised on any other input. -/
def parseDate (s : Str) : Option Date :=
  match splitOnChar '-' s with
  | [ys, ms, ds] =>
    match parseDigits ys, parseDigits ms, parseDigits ds with
    | some y, some m, some d =>
      if ys.length = 4 ∧ 1 ≤ y ∧ ms.length ≤ 2 ∧ 1 ≤ m ∧ m ≤ 12 ∧
          ds.length ≤ 2 ∧ 1 ≤ d ∧ d ≤ daysInMonth y m
      then some ⟨y, m, d⟩ else none
    | _, _, _ => none
  | _ => none

/-- The per-suggestion stats dictionary yielded by `_generate_stats` (the
spec's `StatEvent`): status, reviewer-edit flag, word count of the content,
and the last-updated date in its string form. -/
structure StatEvent where
  suggestion_status : Str
  edited_by_reviewer : Bool
  content_word_count : Nat
  last_updated_date : Str
  deriving DecidableEq

/-- Embedding of `CombineStats.add_input`: returns a new accumulator with
`submitted` counters increased unconditionally, `accepted` counters
increased when the status is `STATUS_ACCEPTED` (the no-reviewer-edits
counter additionally requires `edited_by_reviewer` to be false),
`rejected` counters increased when the status is `STATUS_REJECTED`, and the
parsed `last_updated_date` united into `contribution_dates`.  A `none`
result embeds the `ValueError` that `strptime` raises on an unparsable
`last_updated_date`. -/
def add_input (accumulator : TranslationContributionStats)
    (translation : StatEvent) : Option TranslationContributionStats :=
  match parseDate translation.last_updated_date with
  | none => none
  | some suggestion_date =>
    some {
      language_code := accumulator.language_code
      contributor_user_id := accumulator.contributor_user_id
      topic_id := accumulator.topic_id
      submitted_translations_count :=
        accumulator.submitted_translations_count + 1
      submitted_translation_word_count :=
        accumulator.submitted_translation_word_count +
          translation.content_word_count
      accepted_translations_count :=
        accumulator.accepted_translations_count +
          (if translation.suggestion_status = STATUS_ACCEPTED then 1 else 0)
      accepted_translations_without_reviewer_edits_count :=
        accumulator.accepted_translations_without_reviewer_edits_count +
          (if translation.suggestion_status = STATUS_ACCEPTED ∧
              translation.edited_by_reviewer = false then 1 else 0)
      accepted_translation_word_count :=
        accumulator.accepted_translation_word_count +
          translation.content_word_count *
            (if translation.suggestion_status = STATUS_ACCEPTED then 1 else 0)
      rejected_translations_count :=
        accumulator.rejected_translations_count +
          (if translation.suggestion_status = STATUS_REJECTED then 1 else 0)
      rejected_translation_word_count :=
        accumulator.rejected_translation_word_count +
          translation.content_word_count *
            (if translation.suggestion_status = STATUS_REJECTED then 1 else 0)
      contribution_dates :=
        accumulator.contribution_dates ∪ {suggestion_date} }

/-- Embedding of `CombineStats.merge_accumulators`: key fields are taken
from the first accumulator, every counter is the sum over all accumulators,
and the date sets are united.  A `none` result embeds the `IndexError`
raised by `list(accumulators)[0]` on an empty iterable (the framework never
passes one). -/
def merge_accumulators :
    List TranslationContributionStats → Option TranslationContributionStats
  | [] => none
  | a :: rest =>
    some {
      language_code := a.language_code
      contributor_user_id := a.contributor_user_id
      topic_id := a.topic_id
      submitted_translations_count :=
        ((a :: rest).map (·.submitted_translations_count)).sum
      submitted_translation_word_count :=
        ((a :: rest).map (·.submitted_translation_word_count)).sum
      accepted_translations_count :=
        ((a :: rest).map (·.accepted_translations_count)).sum
      accepted_translations_without_reviewer_edits_count :=
        ((a :: rest).map
          (·.accepted_translations_without_reviewer_edits_count)).sum
      accepted_translation_word_count :=
        ((a :: rest).map (·.accepted_translation_word_count)).sum
      rejected_translations_count :=
        ((a :: rest).map (·.rejected_translations_count)).sum
      rejected_translation_word_count :=
        ((a :: rest).map (·.rejected_translation_word_count)).sum
      contribution_dates :=
        ((a :: rest).map (·.contribution_dates)).foldl (· ∪ ·) ∅ }

/-- Embedding of `CombineStats.extract_output`: the accumulator itself. -/
def extract_output (accumulator : TranslationContributionStats) :
    TranslationContributionStats :=
  accumulator

/-- Modelled from the spec: the constant
`feconf.SUGGESTION_TYPE_TRANSLATE_CONTENT` (the `feconf` module is not
among the embedded sources), the sub-type the job filters for. -/
def SUGGESTION_TYPE_TRANSLATE_CONTENT : Str := "translate_content".toList

/-- A translation suggestion as read by the job
(`suggestion_registry.SuggestionTranslateContent`), restricted to the
fields the job touches; `last_updated` is modelled by its calendar date
since only `last_updated.date()` is used. -/
structure SuggestionTranslateContent where
  suggestion_type : Str
  target_id : Str
  language_code : Str
  author_id : Str
  status : Str
  edited_by_reviewer : Bool
  content_html : Str
  last_updated : Date
  deriving DecidableEq

/-- An exploration opportunity
(`opportunity_domain.ExplorationOpportunitySummary`), restricted to the
fields the job touches. -/
structure ExplorationOpportunitySummary where
  id : Str
  topic_id : Str
  deriving DecidableEq

/-- Helper for `strip_html_tags`: the flag records whether the scan is
inside a tag (between `<` and the matching `>`). -/
def stripAux : Bool → Str → Str
  | _, [] => []
  | true, c :: rest =>
    if c = '>' then stripAux false rest else stripAux true rest
  | false, c :: rest =>
    if c = '<' then stripAux true rest else c :: stripAux false rest

/-- Modelled from the spec: `html_cleaner.strip_html_tags` (defined outside
the embedded sources) strips all markup tags and attributes from the
content, keeping the text outside tags. -/
def strip_html_tags (s : Str) : Str := stripAux false s

/-- Helper for `countWords`: the flag records whether the scan is inside a
word (a maximal run of non-whitespace characters). -/
def countWordsAux : Bool → Str → Nat
  | _, [] => 0
  | inWord, c :: rest =>
    if c.isWhitespace then countWordsAux false rest
    else (if inWord then 0 else 1) + countWordsAux true rest

/-- Number of whitespace-delimited tokens, as `len(text.split())` computes
it in `_generate_stats`: the number of maximal non-whitespace runs. -/
def countWords (s : Str) : Nat := countWordsAux false s

/-- Decimal digits of a natural number. -/
def natDigits (n : Nat) : Str := (toString n).toList

/-- Left-pad a character list with zeros up to the given width. -/
def padZero (width : Nat) (s : Str) : Str :=
  List.replicate (width - s.length) '0' ++ s

/-- Embedding of `datetime.date.isoformat()`: `YYYY-MM-DD` with
zero-padded components. -/
def isoformat (d : Date) : Str :=
  padZero 4 (natDigits d.year) ++ '-' :: padZero 2 (natDigits d.month) ++
    '-' :: padZero 2 (natDigits d.day)

/-- Modelled from the spec:
`suggestion_models.TranslationContributionStatsModel.generate_id` (defined
outside the embedded sources) joins the three key components with the `.`
delimiter. -/
def generate_id (language_code contributor_user_id topic_id : Str) : Str :=
  language_code ++ '.' :: contributor_user_id ++ '.' :: topic_id

/-- Embedding of
`GenerateTranslationContributionStatsJob._generate_stats`: one
`(key, stats dict)` pair per suggestion; the topic id is the matched
opportunity's, or empty when no opportunity is passed. -/
def generate_stats (suggestions : List SuggestionTranslateContent)
    (opportunity : Option ExplorationOpportunitySummary) :
    List (Str × StatEvent) :=
  let topic_id : Str :=
    match opportunity with
    | none => []
    | some o => o.topic_id
  suggestions.map (fun suggestion =>
    let content_word_count :=
      countWords (strip_html_tags suggestion.content_html)
    (generate_id suggestion.language_code suggestion.author_id topic_id,
      { suggestion_status := suggestion.status
        edited_by_reviewer := suggestion.edited_by_reviewer
        content_word_count := content_word_count
        last_updated_date := isoformat suggestion.last_updated }))

/-- The datastore model
`suggestion_models.TranslationContributionStatsModel` as filled in by
`_generate_translation_contribution_model`. -/
structure TranslationContributionStatsModel where
  id : Str
  language_code : Str
  contributor_user_id : Str
  topic_id : Str
  submitted_translations_count : Nat
  submitted_translation_word_count : Nat
  accepted_translations_count : Nat
  accepted_translations_without_reviewer_edits_count : Nat
  accepted_translation_word_count : Nat
  rejected_translations_count : Nat
  rejected_translation_word_count : Nat
  contribution_dates : Finset Date
  deriving DecidableEq

/-- Embedding of
`GenerateTranslationContributionStatsJob._generate_translation_contribution_model`:
the three-way unpack `entity_id.split('.')` succeeds exactly when the split
has three parts; `none` embeds the `ValueError` raised otherwise. -/
def generate_translation_contribution_model (entity_id : Str)
    (translation : TranslationContributionStats) :
    Option TranslationContributionStatsModel :=
  match splitOnChar '.' entity_id with
  | [language_code, contributor_user_id, topic_id] =>
    some {
      id := entity_id
      language_code := language_code
      contributor_user_id := contributor_user_id
      topic_id := topic_id
      submitted_translations_count :=
        translation.submitted_translations_count
      submitted_translation_word_count :=
        translation.submitted_translation_word_count
      accepted_translations_count :=
        translation.accepted_translations_count
      accepted_translations_without_reviewer_edits_count :=
        translation.accepted_translations_without_reviewer_edits_count
      accepted_translation_word_count :=
        translation.accepted_translation_word_count
      rejected_translations_count :=
        translation.rejected_translations_count
      rejected_translation_word_count :=
        translation.rejected_translation_word_count
      contribution_dates := translation.contribution_dates }
  | _ => none

/-- First-occurrence deduplication of a key list; stands for the set of
keys a `GroupBy`/`CoGroupByKey` stage produces (the stages are defined over
unordered collections, so any canonical order embeds them). -/
def dedupFirst : List Str → List Str
  | [] => []
  | k :: rest => k :: (dedupFirst rest).filter (fun x => x != k)

/-- Embedding of the join wiring of
`GenerateTranslationContributionStatsJob.run` up to the keyed event stream:
suggestions are filtered to the translate-content type and grouped by
`target_id`, opportunities are grouped by `id`, the two groupings are
co-grouped by key, and `_generate_stats` is called per key with the
suggestion group and `list(x['opportunity'][0])[0] if len(x['opportunity'])
else None` — the first opportunity of the group when one exists. -/
def pipelineEvents (suggestions : List SuggestionTranslateContent)
    (opportunities : List ExplorationOpportunitySummary) :
    List (Str × StatEvent) :=
  let translate := suggestions.filter
    (fun m => m.suggestion_type == SUGGESTION_TYPE_TRANSLATE_CONTENT)
  let keys := dedupFirst
    (translate.map (·.target_id) ++ opportunities.map (·.id))
  keys.flatMap (fun k =>
    generate_stats (translate.filter (fun m => m.target_id == k))
      ((opportunities.filter (fun o => o.id == k)).head?))

/-- Embedding of the job-result stage of
`GenerateTranslationContributionStatsJob.run`: the produced models are
counted by `Count.Globally().without_defaults()` (which emits nothing on an
empty collection), counts are filtered by `x > 0`, and each remaining count
becomes a `SUCCESS x` result. -/
def jobResults (models : List TranslationContributionStatsModel) :
    List String :=
  let counts := if 0 < models.length then [models.length] else []
  (counts.filter (fun x => decide (0 < x))).map
    (fun x => "SUCCESS " ++ toString x)

/-- Date a `StatEvent` contributes, with a placeholder for the unparsable
case (only used under a parsability hypothesis). -/
def dateOf (translation : StatEvent) : Date :=
  (parseDate translation.last_updated_date).getD ⟨0, 0, 0⟩

/-- The successful branch of `add_input` as a total function. -/
def applyEvent (accumulator : TranslationContributionStats)
    (translation : StatEvent) : TranslationContributionStats :=
  { language_code := accumulator.language_code
    contributor_user_id := accumulator.contributor_user_id
    topic_id := accumulator.topic_id
    submitted_translations_count :=
      accumulator.submitted_translations_count + 1
    submitted_translation_word_count :=
      accumulator.submitted_translation_word_count +
        translation.content_word_count
    accepted_translations_count :=
      accumulator.accepted_translations_count +
        (if translation.suggestion_status = STATUS_ACCEPTED then 1 else 0)
    accepted_translations_without_reviewer_edits_count :=
      accumulator.accepted_translations_without_reviewer_edits_count +
        (if translation.suggestion_status = STATUS_ACCEPTED ∧
            translation.edited_by_reviewer = false then 1 else 0)
    accepted_translation_word_count :=
      accumulator.accepted_translation_word_count +
        translation.content_word_count *
          (if translation.suggestion_status = STATUS_ACCEPTED then 1 else 0)
    rejected_translations_count :=
      accumulator.rejected_translations_count +
        (if translation.suggestion_status = STATUS_REJECTED then 1 else 0)
    rejected_translation_word_count :=
      accumulator.rejected_translation_word_count +
        translation.content_word_count *
          (if translation.suggestion_status = STATUS_REJECTED then 1 else 0)
    contribution_dates :=
      accumulator.contribution_dates ∪ {dateOf translation} }

theorem add_input_eq_some {accumulator : TranslationContributionStats}
    {translation : StatEvent} {b : TranslationContributionStats}
    (h : add_input accumulator translation = some b) :
    b = applyEvent accumulator translation ∧
      (parseDate translation.last_updated_date).isSome := by
  unfold add_input at h
  cases hp : parseDate translation.last_updated_date with
  | none => rw [hp] at h; exact absurd h (by simp)
  | some d =>
    rw [hp] at h
    refine ⟨?_, by simp [hp]⟩
    have hb := Option.some.inj h
    rw [← hb]
    simp [applyEvent, dateOf, hp]

theorem add_input_of_parsable {accumulator : TranslationContributionStats}
    {translation : StatEvent}
    (h : (parseDate translation.last_updated_date).isSome) :
    add_input accumulator translation =
      some (applyEvent accumulator translation) := by
  unfold add_input
  cases hp : parseDate translation.last_updated_date with
  | none => rw [hp] at h; simp at h
  | some d => simp [applyEvent, dateOf, hp]

/-- Sequential fold of `add_input` over a list of events, propagating the
failure of any single `add_input` — the per-key reduction
`CombinePerKey(CombineStats())` performs on a group. -/
def foldEvents (accumulator : TranslationContributionStats) :
    List StatEvent → Option TranslationContributionStats
  | [] => some accumulator
  | t :: rest =>
    match add_input accumulator t with
    | none => none
    | some b => foldEvents b rest

/-- Total fold of the successful branch of `add_input`. -/
def foldPure (accumulator : TranslationContributionStats)
    (l : List StatEvent) : TranslationContributionStats :=
  l.foldl applyEvent accumulator

/-- Per-event increment of `accepted_translations_count`. -/
def acceptedCount (t : StatEvent) : Nat :=
  if t.suggestion_status = STATUS_ACCEPTED then 1 else 0

/-- Per-event increment of
`accepted_translations_without_reviewer_edits_count`. -/
def acceptedNoEditCount (t : StatEvent) : Nat :=
  if t.suggestion_status = STATUS_ACCEPTED ∧ t.edited_by_reviewer = false
  then 1 else 0

/-- Per-event increment of `rejected_translations_count`. -/
def rejectedCount (t : StatEvent) : Nat :=
  if t.suggestion_status = STATUS_REJECTED then 1 else 0

/-- Set of dates contributed by a list of events. -/
def datesOf (l : List StatEvent) : Finset Date :=
  (l.map dateOf).toFinset

/-- Closed form of a fold of the combiner over a list of events: key
fields untouched, counters increased by per-event sums, dates united. -/
def statsOf (a : TranslationContributionStats) (l : List StatEvent) :
    TranslationContributionStats :=
  { language_code := a.language_code
    contributor_user_id := a.contributor_user_id
    topic_id := a.topic_id
    submitted_translations_count :=
      a.submitted_translations_count + l.length
    submitted_translation_word_count :=
      a.submitted_translation_word_count +
        (l.map (·.content_word_count)).sum
    accepted_translations_count :=
      a.accepted_translations_count + (l.map acceptedCount).sum
    accepted_translations_without_reviewer_edits_count :=
      a.accepted_translations_without_reviewer_edits_count +
        (l.map acceptedNoEditCount).sum
    accepted_translation_word_count :=
      a.accepted_translation_word_count +
        (l.map (fun t => t.content_word_count * acceptedCount t)).sum
    rejected_translations_count :=
      a.rejected_translations_count + (l.map rejectedCount).sum
    rejected_translation_word_count :=
      a.rejected_translation_word_count +
        (l.map (fun t => t.content_word_count * rejectedCount t)).sum
    contribution_dates :=
      a.contribution_dates ∪ datesOf l }

theorem foldPure_eq (l : List StatEvent)
    (a : TranslationContributionStats) : foldPure a l = statsOf a l := by
  induction l generalizing a with
  | nil =>
    ext <;> simp [foldPure, statsOf, datesOf]
  | cons t rest ih =>
    have step : foldPure a (t :: rest) = foldPure (applyEvent a t) rest := rfl
    rw [step, ih]
    refine TranslationContributionStats.ext ?_ ?_ ?_ ?_ ?_ ?_ ?_ ?_ ?_ ?_ ?_
    all_goals
      simp [statsOf, applyEvent, acceptedCount, acceptedNoEditCount,
        rejectedCount, datesOf, Finset.insert_eq, Finset.union_assoc]
    all_goals omega

theorem foldEvents_eq_foldPure {l : List StatEvent}
    (h : ∀ t ∈ l, (parseDate t.last_updated_date).isSome)
    (a : TranslationContributionStats) :
    foldEvents a l = some (foldPure a l) := by
  induction l generalizing a with
  | nil => rfl
  | cons t rest ih =>
    have ht : (parseDate t.last_updated_date).isSome := h t (by simp)
    have step : foldEvents a (t :: rest) =
        match add_input a t with
        | none => none
        | some b => foldEvents b rest := rfl
    rw [step, add_input_of_parsable ht]
    exact ih (fun x hx => h x (List.mem_cons_of_mem _ hx)) (applyEvent a t)

theorem statsOf_perm (a : TranslationContributionStats)
    {l₁ l₂ : List StatEvent} (h : l₁.Perm l₂) :
    statsOf a l₁ = statsOf a l₂ := by
  refine TranslationContributionStats.ext rfl rfl rfl ?_ ?_ ?_ ?_ ?_ ?_ ?_ ?_
  · simp only [statsOf]; rw [h.length_eq]
  · simp only [statsOf]; rw [(h.map (·.content_word_count)).sum_eq]
  · simp only [statsOf]; rw [(h.map acceptedCount).sum_eq]
  · simp only [statsOf]; rw [(h.map acceptedNoEditCount).sum_eq]
  · simp only [statsOf]
    rw [(h.map (fun t => t.content_word_count * acceptedCount t)).sum_eq]
  · simp only [statsOf]; rw [(h.map rejectedCount).sum_eq]
  · simp only [statsOf]
    rw [(h.map (fun t => t.content_word_count * rejectedCount t)).sum_eq]
  · simp only [statsOf, datesOf]
    rw [List.toFinset.ext_iff.mpr (fun x => (h.map dateOf).mem_iff)]

theorem sum_map_flatten_eq {α : Type} (groups : List (List α))
    (w : α → Nat) :
    (groups.map (fun g => (g.map w).sum)).sum = (groups.flatten.map w).sum := by
  induction groups with
  | nil => rfl
  | cons g gs ih => simp [List.map_append, List.sum_append, ih]

theorem foldl_union_init (ss : List (Finset Date)) (init : Finset Date) :
    ss.foldl (· ∪ ·) init = init ∪ ss.foldl (· ∪ ·) ∅ := by
  induction ss generalizing init with
  | nil => simp
  | cons s ss ih =>
    rw [List.foldl_cons, List.foldl_cons, ih (init ∪ s), ih (∅ ∪ s)]
    simp [Finset.union_assoc]

theorem foldl_union_datesOf (groups : List (List StatEvent)) :
    (groups.map datesOf).foldl (· ∪ ·) ∅ = datesOf groups.flatten := by
  induction groups with
  | nil => rfl
  | cons g gs ih =>
    rw [List.map_cons, List.foldl_cons, foldl_union_init, ih]
    simp [datesOf, List.map_append, List.toFinset_append]

/-- Per-group reduction of a list of groups: each group is folded into a
fresh `create_accumulator()` with `add_input`, any single failure failing
the whole computation — the spec's `reduce(G1), ..., reduce(Gn)`. -/
def foldGroups : List (List StatEvent) →
    Option (List TranslationContributionStats)
  | [] => some []
  | g :: gs =>
    match foldEvents create_accumulator g, foldGroups gs with
    | some r, some rs => some (r :: rs)
    | _, _ => none

theorem foldGroups_eq (groups : List (List StatEvent))
    (h : ∀ t ∈ groups.flatten, (parseDate t.last_updated_date).isSome) :
    foldGroups groups = some (groups.map (foldPure create_accumulator)) := by
  induction groups with
  | nil => rfl
  | cons g gs ih =>
    have hg : ∀ t ∈ g, (parseDate t.last_updated_date).isSome :=
      fun t ht => h t (by simp [ht])
    have hgs : ∀ t ∈ gs.flatten, (parseDate t.last_updated_date).isSome := by
      intro t ht
      refine h t ?_
      simp only [List.flatten_cons, List.mem_append]
      exact Or.inr ht
    simp [foldGroups, foldEvents_eq_foldPure hg, ih hgs]

theorem sum_map_one (l : List StatEvent) :
    (l.map (fun _ => (1 : Nat))).sum = l.length := by
  induction l with
  | nil => rfl
  | cons t rest ih => simp [ih]; omega

theorem map_proj_sum (ls : List (List StatEvent))
    (proj : TranslationContributionStats → Nat) (w : StatEvent → Nat)
    (hproj : ∀ gi : List StatEvent,
      proj (statsOf create_accumulator gi) = (gi.map w).sum) :
    ((ls.map (statsOf create_accumulator)).map proj).sum =
      (ls.flatten.map w).sum := by
  rw [List.map_map]
  have h2 : ls.map (proj ∘ statsOf create_accumulator) =
      ls.map (fun gi => (gi.map w).sum) :=
    List.map_congr_left (fun gi _ => hproj gi)
  rw [h2]
  exact sum_map_flatten_eq ls w

theorem map_proj_dates (ls : List (List StatEvent)) :
    ((ls.map (statsOf create_accumulator)).map
        (·.contribution_dates)).foldl (· ∪ ·) ∅ =
      datesOf ls.flatten := by
  rw [List.map_map]
  have h2 : ls.map ((·.contribution_dates) ∘ statsOf create_accumulator) =
      ls.map datesOf :=
    List.map_congr_left (fun gi _ => by
      simp [Function.comp_def, statsOf, create_accumulator,
        TranslationContributionStats.create_default])
  rw [h2]
  exact foldl_union_datesOf ls

theorem merge_foldPure (g : List StatEvent) (gs : List (List StatEvent)) :
    merge_accumulators ((g :: gs).map (foldPure create_accumulator)) =
      some (statsOf create_accumulator ((g :: gs).flatten)) := by
  have hmap : ∀ ls : List (List StatEvent),
      ls.map (foldPure create_accumulator) =
        ls.map (statsOf create_accumulator) := fun ls =>
    List.map_congr_left (fun gi _ => foldPure_eq gi create_accumulator)
  rw [hmap]
  have hsub := map_proj_sum (g :: gs) (·.submitted_translations_count)
    (fun _ => 1) (fun gi => by
      simp [statsOf, create_accumulator,
        TranslationContributionStats.create_default, sum_map_one])
  have hsubw := map_proj_sum (g :: gs) (·.submitted_translation_word_count)
    (·.content_word_count) (fun gi => by
      simp [statsOf, create_accumulator,
        TranslationContributionStats.create_default])
  have hacc := map_proj_sum (g :: gs) (·.accepted_translations_count)
    acceptedCount (fun gi => by
      simp [statsOf, create_accumulator,
        TranslationContributionStats.create_default])
  have haccne := map_proj_sum (g :: gs)
    (·.accepted_translations_without_reviewer_edits_count)
    acceptedNoEditCount (fun gi => by
      simp [statsOf, create_accumulator,
        TranslationContributionStats.create_default])
  have haccw := map_proj_sum (g :: gs) (·.accepted_translation_word_count)
    (fun t => t.content_word_count * acceptedCount t) (fun gi => by
      simp [statsOf, create_accumulator,
        TranslationContributionStats.create_default])
  have hrej := map_proj_sum (g :: gs) (·.rejected_translations_count)
    rejectedCount (fun gi => by
      simp [statsOf, create_accumulator,
        TranslationContributionStats.create_default])
  have hrejw := map_proj_sum (g :: gs) (·.rejected_translation_word_count)
    (fun t => t.content_word_count * rejectedCount t) (fun gi => by
      simp [statsOf, create_accumulator,
        TranslationContributionStats.create_default])
  have hdat := map_proj_dates (g :: gs)
  simp only [List.map_cons] at hsub hsubw hacc haccne haccw hrej hrejw hdat
  simp only [List.map_cons, merge_accumulators]
  congr 1
  refine TranslationContributionStats.ext rfl rfl rfl ?_ ?_ ?_ ?_ ?_ ?_ ?_ ?_ <;>
    dsimp only
  · rw [hsub]
    simp [statsOf, create_accumulator,
      TranslationContributionStats.create_default, sum_map_one]
    exact congrArg List.sum
      (List.map_congr_left (fun gi _ => sum_map_one gi))
  · rw [hsubw]
    simp [statsOf, create_accumulator,
      TranslationContributionStats.create_default]
  · rw [hacc]
    simp [statsOf, create_accumulator,
      TranslationContributionStats.create_default]
  · rw [haccne]
    simp [statsOf, create_accumulator,
      TranslationContributionStats.create_default]
  · rw [haccw]
    simp [statsOf, create_accumulator,
      TranslationContributionStats.create_default]
  · rw [hrej]
    simp [statsOf, create_accumulator,
      TranslationContributionStats.create_default]
  · rw [hrejw]
    simp [statsOf, create_accumulator,
      TranslationContributionStats.create_default]
  · rw [hdat]
    simp [statsOf, create_accumulator,
      TranslationContributionStats.create_default]

/-- Sample accepted event (3-word content, updated January 5, 2024) used by
concrete witnesses. -/
def evA : StatEvent :=
  { suggestion_status := STATUS_ACCEPTED
    edited_by_reviewer := false
    content_word_count := 3
    last_updated_date := "2024-01-05".toList }

/-- Sample rejected event (5-word content, edited by the reviewer, updated
January 6, 2024) used by concrete witnesses. -/
def evR : StatEvent :=
  { suggestion_status := STATUS_REJECTED
    edited_by_reviewer := true
    content_word_count := 5
    last_updated_date := "2024-01-06".toList }

/-- Sample event whose `last_updated_date` is not a parsable date. -/
def evBad : StatEvent :=
  { suggestion_status := STATUS_ACCEPTED
    edited_by_reviewer := false
    content_word_count := 3
    last_updated_date := "not-a-date".toList }

/-- C1: for every multiset of `StatEvent` dictionaries sharing one
aggregation key and every partition of it into groups G1..Gn (n ≥ 1),
merging the per-group results of folding each group into a fresh
`create_accumulator()` with `CombineStats.add_input` via
`CombineStats.merge_accumulators` yields the same accumulator — field-wise
equal counters and equal contribution-date sets — as folding the whole
multiset in one group, independent of partition boundaries, evaluation
order, or permutation of the events. -/
theorem combineStats_partition_and_order_independent
    (groups : List (List StatEvent)) (l : List StatEvent)
    (hne : groups ≠ []) (hperm : groups.flatten.Perm l)
    (hparse : ∀ t ∈ l, (parseDate t.last_updated_date).isSome) :
    (foldGroups groups).bind merge_accumulators =
      foldEvents create_accumulator l := by
  have hparse' : ∀ t ∈ groups.flatten,
      (parseDate t.last_updated_date).isSome :=
    fun t ht => hparse t (hperm.mem_iff.mp ht)
  rw [foldGroups_eq groups hparse', foldEvents_eq_foldPure hparse]
  cases groups with
  | nil => exact absurd rfl hne
  | cons g gs =>
    show merge_accumulators ((g :: gs).map (foldPure create_accumulator)) =
      some (foldPure create_accumulator l)
    rw [merge_foldPure, foldPure_eq]
    exact congrArg some (statsOf_perm _ hperm)

/-- Witness for C1 at the concrete partition `[[evA], [evR]]` of the
two-event multiset, read back in swapped order. -/
theorem combineStats_partition_and_order_independent_witness :
    ([[evA], [evR]] : List (List StatEvent)) ≠ [] ∧
      ([[evA], [evR]] : List (List StatEvent)).flatten.Perm [evR, evA] ∧
      (∀ t ∈ [evR, evA], (parseDate t.last_updated_date).isSome) ∧
      (foldGroups [[evA], [evR]]).bind merge_accumulators =
        foldEvents create_accumulator [evR, evA] :=
  ⟨by decide, by decide, by decide,
    combineStats_partition_and_order_independent [[evA], [evR]] [evR, evA]
      (by decide) (by decide) (by decide)⟩

theorem foldEvents_some {l : List StatEvent}
    {a b : TranslationContributionStats}
    (h : foldEvents a l = some b) : b = foldPure a l := by
  induction l generalizing a with
  | nil => exact (Option.some.inj h).symm
  | cons t rest ih =>
    have step : foldEvents a (t :: rest) =
        match add_input a t with
        | none => none
        | some c => foldEvents c rest := rfl
    rw [step] at h
    cases hc : add_input a t with
    | none => rw [hc] at h; exact absurd h (by simp)
    | some c =>
      rw [hc] at h
      have hceq := (add_input_eq_some hc).1
      have hrec := ih (a := c) h
      rw [hrec, hceq]
      rfl

/-- C7: merging the identity accumulator with a reduced accumulator `x`
(obtained by folding a non-empty group of events into a fresh
`create_accumulator()`) yields `x` in every field, key fields included. -/
theorem merge_identity_law (events : List StatEvent)
    (x : TranslationContributionStats) (_hne : events ≠ [])
    (hx : foldEvents create_accumulator events = some x) :
    merge_accumulators [create_accumulator, x] = some x := by
  have hx' : x = foldPure create_accumulator events := foldEvents_some hx
  subst hx'
  rw [foldPure_eq]
  simp only [merge_accumulators]
  congr 1
  refine TranslationContributionStats.ext ?_ ?_ ?_ ?_ ?_ ?_ ?_ ?_ ?_ ?_ ?_ <;>
    simp [statsOf, create_accumulator,
      TranslationContributionStats.create_default]

/-- Accumulator obtained by folding the single sample event `evA` into a
fresh accumulator; used by concrete witnesses. -/
def xA : TranslationContributionStats := applyEvent create_accumulator evA

/-- Witness for C7 at the one-event group `[evA]`. -/
theorem merge_identity_law_witness :
    ([evA] : List StatEvent) ≠ [] ∧
      foldEvents create_accumulator [evA] = some xA ∧
      merge_accumulators [create_accumulator, xA] = some xA :=
  ⟨by decide, by decide,
    merge_identity_law [evA] xA (by decide) (by decide)⟩

/-- Accumulator values reachable from a fresh `create_accumulator()` by
any sequence of successful `add_input` folds and `merge_accumulators`
merges. -/
inductive Reachable : TranslationContributionStats → Prop
  | default : Reachable create_accumulator
  | fold {a b : TranslationContributionStats} {t : StatEvent} :
      Reachable a → add_input a t = some b → Reachable b
  | merge {accs : List TranslationContributionStats}
      {b : TranslationContributionStats} :
      (∀ x ∈ accs, Reachable x) → merge_accumulators accs = some b →
      Reachable b

theorem sum_map_le_sum_map {α : Type} (l : List α) (f g : α → Nat)
    (h : ∀ x ∈ l, f x ≤ g x) : (l.map f).sum ≤ (l.map g).sum := by
  induction l with
  | nil => simp
  | cons x xs ih =>
    simp only [List.map_cons, List.sum_cons]
    have h1 := h x (by simp)
    have h2 := ih (fun y hy => h y (by simp [hy]))
    omega

theorem sum_map_add {α : Type} (l : List α) (f g : α → Nat) :
    (l.map (fun x => f x + g x)).sum = (l.map f).sum + (l.map g).sum := by
  induction l with
  | nil => rfl
  | cons x xs ih =>
    simp only [List.map_cons, List.sum_cons, ih]
    omega

theorem card_foldl_union (ss : List (Finset Date)) :
    (ss.foldl (· ∪ ·) ∅).card ≤ (ss.map Finset.card).sum := by
  induction ss with
  | nil => simp
  | cons s ss ih =>
    rw [List.foldl_cons, foldl_union_init]
    have h1 := Finset.card_union_le (∅ ∪ s) (ss.foldl (· ∪ ·) ∅)
    simp only [Finset.empty_union] at h1
    simp only [List.map_cons, List.sum_cons, Finset.empty_union]
    omega

/-- C3: every accumulator reachable from the identity by folds and merges
has non-negative counters (they live in `Nat`) bounded by the submitted
counters: no-edit accepted ≤ accepted, accepted + rejected ≤ submitted,
accepted and rejected word counts ≤ submitted word count, and the number
of distinct contribution dates ≤ submitted count. -/
theorem reachable_invariants (a : TranslationContributionStats)
    (h : Reachable a) :
    a.accepted_translations_without_reviewer_edits_count ≤
        a.accepted_translations_count ∧
      a.accepted_translations_count ≤ a.submitted_translations_count ∧
      a.accepted_translations_count + a.rejected_translations_count ≤
        a.submitted_translations_count ∧
      a.accepted_translation_word_count ≤
        a.submitted_translation_word_count ∧
      a.rejected_translation_word_count ≤
        a.submitted_translation_word_count ∧
      a.contribution_dates.card ≤ a.submitted_translations_count := by
  induction h with
  | default =>
    simp [create_accumulator, TranslationContributionStats.create_default]
  | @fold a₀ b t ha hstep ih =>
    obtain ⟨hb, _⟩ := add_input_eq_some hstep
    subst hb
    obtain ⟨ih1, ih2, ih3, ih4, ih5, ih6⟩ := ih
    have hcard : (a₀.contribution_dates ∪ {dateOf t}).card ≤
        a₀.contribution_dates.card + 1 := by
      simpa using Finset.card_union_le a₀.contribution_dates {dateOf t}
    have hAR : STATUS_ACCEPTED ≠ STATUS_REJECTED := by decide
    have hRA : STATUS_REJECTED ≠ STATUS_ACCEPTED := by decide
    by_cases hP : t.suggestion_status = STATUS_ACCEPTED <;>
      by_cases hQ : t.edited_by_reviewer = false <;>
      by_cases hR : t.suggestion_status = STATUS_REJECTED
    all_goals
      first
      | exact absurd (hP.symm.trans hR) (by decide)
      | (refine ⟨?_, ?_, ?_, ?_, ?_, ?_⟩ <;>
          simp [applyEvent, hP, hQ, hR, hAR, hRA] <;> omega)
  | @merge accs b hall hmerge ih =>
    cases accs with
    | nil => exact absurd hmerge (by simp [merge_accumulators])
    | cons a₀ rest =>
      simp only [merge_accumulators] at hmerge
      have hb := Option.some.inj hmerge
      have h1 := sum_map_le_sum_map (a₀ :: rest)
        (·.accepted_translations_without_reviewer_edits_count)
        (·.accepted_translations_count) (fun x hx => (ih x hx).1)
      have h2 := sum_map_le_sum_map (a₀ :: rest)
        (·.accepted_translations_count)
        (·.submitted_translations_count) (fun x hx => (ih x hx).2.1)
      have h3 := sum_map_le_sum_map (a₀ :: rest)
        (fun x => x.accepted_translations_count +
          x.rejected_translations_count)
        (·.submitted_translations_count) (fun x hx => (ih x hx).2.2.1)
      have h4 := sum_map_le_sum_map (a₀ :: rest)
        (·.accepted_translation_word_count)
        (·.submitted_translation_word_count)
        (fun x hx => (ih x hx).2.2.2.1)
      have h5 := sum_map_le_sum_map (a₀ :: rest)
        (·.rejected_translation_word_count)
        (·.submitted_translation_word_count)
        (fun x hx => (ih x hx).2.2.2.2.1)
      have h6 := sum_map_le_sum_map (a₀ :: rest)
        (fun x => x.contribution_dates.card)
        (·.submitted_translations_count)
        (fun x hx => (ih x hx).2.2.2.2.2)
      have hadd := sum_map_add (a₀ :: rest)
        (·.accepted_translations_count) (·.rejected_translations_count)
      have hcard := card_foldl_union
        ((a₀ :: rest).map (·.contribution_dates))
      rw [List.map_map] at hcard
      rw [← hb]
      refine ⟨?_, ?_, ?_, ?_, ?_, ?_⟩ <;>
        simp only [List.map_cons, List.sum_cons, Function.comp_def] at * <;>
        omega

/-- Witness for C3 at the accumulator reached by folding `evA` into a
fresh accumulator. -/
theorem reachable_invariants_witness :
    Reachable xA ∧
      xA.accepted_translations_without_reviewer_edits_count ≤
        xA.accepted_translations_count ∧
      xA.accepted_translations_count ≤ xA.submitted_translations_count ∧
      xA.accepted_translations_count + xA.rejected_translations_count ≤
        xA.submitted_translations_count ∧
      xA.accepted_translation_word_count ≤
        xA.submitted_translation_word_count ∧
      xA.rejected_translation_word_count ≤
        xA.submitted_translation_word_count ∧
      xA.contribution_dates.card ≤ xA.submitted_translations_count :=
  ⟨Reachable.fold (t := evA) Reachable.default (by decide),
    reachable_invariants xA
      (Reachable.fold (t := evA) Reachable.default (by decide))⟩

/-- C2: for every accumulator and event dictionary with a parsable date,
`add_input` returns a new accumulator whose submitted counters grow by 1
and by the content word count unconditionally, whose accepted counters
grow exactly when the status is `STATUS_ACCEPTED` (the no-edit counter
additionally requiring `edited_by_reviewer = false`), whose rejected
counters grow exactly when the status is `STATUS_REJECTED`, and whose
contribution dates gain the event's date. -/
theorem add_input_field_spec (accumulator : TranslationContributionStats)
    (translation : StatEvent) (d : Date)
    (hd : parseDate translation.last_updated_date = some d) :
    ∃ result, add_input accumulator translation = some result ∧
      result.language_code = accumulator.language_code ∧
      result.contributor_user_id = accumulator.contributor_user_id ∧
      result.topic_id = accumulator.topic_id ∧
      result.submitted_translations_count =
        accumulator.submitted_translations_count + 1 ∧
      result.submitted_translation_word_count =
        accumulator.submitted_translation_word_count +
          translation.content_word_count ∧
      result.accepted_translations_count =
        accumulator.accepted_translations_count +
          (if translation.suggestion_status = STATUS_ACCEPTED
            then 1 else 0) ∧
      result.accepted_translations_without_reviewer_edits_count =
        accumulator.accepted_translations_without_reviewer_edits_count +
          (if translation.suggestion_status = STATUS_ACCEPTED ∧
              translation.edited_by_reviewer = false then 1 else 0) ∧
      result.accepted_translation_word_count =
        accumulator.accepted_translation_word_count +
          (if translation.suggestion_status = STATUS_ACCEPTED
            then translation.content_word_count else 0) ∧
      result.rejected_translations_count =
        accumulator.rejected_translations_count +
          (if translation.suggestion_status = STATUS_REJECTED
            then 1 else 0) ∧
      result.rejected_translation_word_count =
        accumulator.rejected_translation_word_count +
          (if translation.suggestion_status = STATUS_REJECTED
            then translation.content_word_count else 0) ∧
      result.contribution_dates =
        accumulator.contribution_dates ∪ {d} := by
  refine ⟨applyEvent accumulator translation,
    add_input_of_parsable (by simp [hd]), ?_⟩
  refine ⟨rfl, rfl, rfl, rfl, rfl, ?_, rfl, ?_, ?_, ?_, ?_⟩
  · rfl
  · simp only [applyEvent]
    by_cases hP : translation.suggestion_status = STATUS_ACCEPTED <;>
      simp [hP]
  · rfl
  · simp only [applyEvent]
    by_cases hR : translation.suggestion_status = STATUS_REJECTED <;>
      simp [hR]
  · simp [applyEvent, dateOf, hd]

/-- Witness for C2 at a fresh accumulator and the sample accepted event. -/
theorem add_input_field_spec_witness :
    parseDate evA.last_updated_date = some ⟨2024, 1, 5⟩ ∧
      ∃ result, add_input create_accumulator evA = some result ∧
        result.language_code = create_accumulator.language_code ∧
        result.contributor_user_id =
          create_accumulator.contributor_user_id ∧
        result.topic_id = create_accumulator.topic_id ∧
        result.submitted_translations_count =
          create_accumulator.submitted_translations_count + 1 ∧
        result.submitted_translation_word_count =
          create_accumulator.submitted_translation_word_count +
            evA.content_word_count ∧
        result.accepted_translations_count =
          create_accumulator.accepted_translations_count +
            (if evA.suggestion_status = STATUS_ACCEPTED then 1 else 0) ∧
        result.accepted_translations_without_reviewer_edits_count =
          create_accumulator.accepted_translations_without_reviewer_edits_count +
            (if evA.suggestion_status = STATUS_ACCEPTED ∧
                evA.edited_by_reviewer = false then 1 else 0) ∧
        result.accepted_translation_word_count =
          create_accumulator.accepted_translation_word_count +
            (if evA.suggestion_status = STATUS_ACCEPTED
              then evA.content_word_count else 0) ∧
        result.rejected_translations_count =
          create_accumulator.rejected_translations_count +
            (if evA.suggestion_status = STATUS_REJECTED then 1 else 0) ∧
        result.rejected_translation_word_count =
          create_accumulator.rejected_translation_word_count +
            (if evA.suggestion_status = STATUS_REJECTED
              then evA.content_word_count else 0) ∧
        result.contribution_dates =
          create_accumulator.contribution_dates ∪ {⟨2024, 1, 5⟩} :=
  ⟨by decide, add_input_field_spec create_accumulator evA ⟨2024, 1, 5⟩
    (by decide)⟩

/-- Sample translate-content suggestion (Spanish, author `u1`, accepted,
unedited, two-word content, updated January 5, 2024) used by concrete
witnesses and counterexamples. -/
def sugA : SuggestionTranslateContent :=
  { suggestion_type := SUGGESTION_TYPE_TRANSLATE_CONTENT
    target_id := "exp1".toList
    language_code := "es".toList
    author_id := "u1".toList
    status := STATUS_ACCEPTED
    edited_by_reviewer := false
    content_html := "<p>hi there</p>".toList
    last_updated := ⟨2024, 1, 5⟩ }

/-- Sample opportunity matching `sugA`'s target, with topic `t1`. -/
def oppA : ExplorationOpportunitySummary :=
  { id := "exp1".toList, topic_id := "t1".toList }

/-- Second opportunity with the same id as `oppA` but topic `t2`. -/
def oppB : ExplorationOpportunitySummary :=
  { id := "exp1".toList, topic_id := "t2".toList }

/-- Sample produced model used by concrete witnesses. -/
def mA : TranslationContributionStatsModel :=
  { id := "es.u1.t1".toList
    language_code := "es".toList
    contributor_user_id := "u1".toList
    topic_id := "t1".toList
    submitted_translations_count := 1
    submitted_translation_word_count := 2
    accepted_translations_count := 1
    accepted_translations_without_reviewer_edits_count := 1
    accepted_translation_word_count := 2
    rejected_translations_count := 0
    rejected_translation_word_count := 0
    contribution_dates := {⟨2024, 1, 5⟩} }

/-- C8 counterexample: a one-suggestion group keyed `es.u1.t1` is folded,
yet the resulting accumulator's `language_code` is the default empty
string, not the key's `es` — the key components are never written into the
accumulator by `add_input`. -/
theorem accumulator_key_fields_counterexample :
    (generate_stats [sugA] (some oppA)).map Prod.fst =
      [generate_id "es".toList "u1".toList "t1".toList] ∧
      (foldEvents create_accumulator
          ((generate_stats [sugA] (some oppA)).map Prod.snd)).map
        (·.language_code) = some [] ∧
      ([] : Str) ≠ "es".toList := by
  decide

/-- C8 (amended): `create_default()` is zero-valued (all counts 0, empty
date set), and the language/contributor/topic fields of any accumulator
folded from it stay at their default values for every input — the event
dictionaries carry no key components, so the fields are never set from
input; the grouping key's components are attached only downstream by
`_generate_translation_contribution_model`. -/
theorem create_default_zero_and_key_fields_constant
    (events : List StatEvent) (acc : TranslationContributionStats)
    (hfold : foldEvents create_accumulator events = some acc) :
    (create_accumulator.submitted_translations_count = 0 ∧
        create_accumulator.submitted_translation_word_count = 0 ∧
        create_accumulator.accepted_translations_count = 0 ∧
        create_accumulator.accepted_translations_without_reviewer_edits_count
          = 0 ∧
        create_accumulator.accepted_translation_word_count = 0 ∧
        create_accumulator.rejected_translations_count = 0 ∧
        create_accumulator.rejected_translation_word_count = 0 ∧
        create_accumulator.contribution_dates = ∅) ∧
      acc.language_code = create_accumulator.language_code ∧
      acc.contributor_user_id = create_accumulator.contributor_user_id ∧
      acc.topic_id = create_accumulator.topic_id := by
  have hacc := foldEvents_some hfold
  subst hacc
  rw [foldPure_eq]
  exact ⟨by decide, rfl, rfl, rfl⟩

/-- Witness for the amended C8 at the one-event list `[evA]`. -/
theorem create_default_zero_and_key_fields_constant_witness :
    foldEvents create_accumulator [evA] = some xA ∧
      (create_accumulator.submitted_translations_count = 0 ∧
          create_accumulator.submitted_translation_word_count = 0 ∧
          create_accumulator.accepted_translations_count = 0 ∧
          create_accumulator.accepted_translations_without_reviewer_edits_count
            = 0 ∧
          create_accumulator.accepted_translation_word_count = 0 ∧
          create_accumulator.rejected_translations_count = 0 ∧
          create_accumulator.rejected_translation_word_count = 0 ∧
          create_accumulator.contribution_dates = ∅) ∧
        xA.language_code = create_accumulator.language_code ∧
        xA.contributor_user_id = create_accumulator.contributor_user_id ∧
        xA.topic_id = create_accumulator.topic_id :=
  ⟨by decide,
    create_default_zero_and_key_fields_constant [evA] xA (by decide)⟩

/-- C9 counterexample: an event whose `last_updated_date` is not a
parsable date makes `add_input` raise (result `none`) — the record is not
skipped and the fold aborts. -/
theorem add_input_unparsable_date_counterexample :
    add_input create_accumulator evBad = none := by decide

/-- C9 (amended): `add_input` propagates the `ValueError` of `strptime`:
whenever the event's `last_updated_date` fails to parse, the fold step
fails instead of skipping the record; there is no local recovery in
`CombineStats.add_input`. -/
theorem add_input_unparsable_date_raises
    (accumulator : TranslationContributionStats) (translation : StatEvent)
    (h : parseDate translation.last_updated_date = none) :
    add_input accumulator translation = none := by
  simp [add_input, h]

/-- Witness for the amended C9 at the sample bad-date event. -/
theorem add_input_unparsable_date_raises_witness :
    parseDate evBad.last_updated_date = none ∧
      add_input create_accumulator evBad = none :=
  ⟨by decide,
    add_input_unparsable_date_raises create_accumulator evBad (by decide)⟩

theorem splitOnChar_ne_nil (sep : Char) (l : Str) :
    splitOnChar sep l ≠ [] := by
  induction l with
  | nil => simp [splitOnChar]
  | cons c rest ih =>
    simp only [splitOnChar]
    by_cases hc : c = sep
    · simp [hc]
    · simp only [if_neg hc]
      cases hs : splitOnChar sep rest with
      | nil => simp
      | cons p ps => simp

theorem splitOnChar_length (sep : Char) (l : Str) :
    (splitOnChar sep l).length = l.count sep + 1 := by
  induction l with
  | nil => simp [splitOnChar]
  | cons c rest ih =>
    simp only [splitOnChar]
    by_cases hc : c = sep
    · subst hc
      simp only [if_pos rfl, List.length_cons, List.count_cons]
      simp
      exact ih
    · simp only [if_neg hc]
      cases hs : splitOnChar sep rest with
      | nil => exact absurd hs (splitOnChar_ne_nil sep rest)
      | cons p ps =>
        rw [hs] at ih
        simp only [List.length_cons] at ih
        simp only [List.length_cons, List.count_cons]
        have hb : (sep == c) = false :=
          beq_eq_false_iff_ne.mpr (fun hh => hc hh.symm)
        simp [hb, ih]
        exact hc

/-- C10: `_generate_translation_contribution_model` succeeds exactly when
the entity id holds exactly two `.` delimiters — the three-way unpack of
`entity_id.split('.')` then yields three components (an empty topic
component, as in `es.u1.`, is accepted); any other number of delimiters
makes the unpack raise and fail the run. -/
theorem generate_translation_contribution_model_success_iff
    (entity_id : Str) (translation : TranslationContributionStats) :
    (generate_translation_contribution_model entity_id translation).isSome
      ↔ entity_id.count '.' = 2 := by
  have hlen := splitOnChar_length '.' entity_id
  unfold generate_translation_contribution_model
  rcases hs : splitOnChar '.' entity_id with _ | ⟨a, _ | ⟨b, _ | ⟨c, _ | ds⟩⟩⟩ <;>
    rw [hs] at hlen <;> simp at hlen ⊢ <;> omega

theorem splitOnChar_append_sep (sep : Char) (a rest : Str)
    (h : sep ∉ a) :
    splitOnChar sep (a ++ sep :: rest) = a :: splitOnChar sep rest := by
  induction a with
  | nil => simp [splitOnChar]
  | cons c a' ih =>
    have hc : ¬c = sep := fun hh => h (by simp [hh])
    have h' : sep ∉ a' := fun hh => h (by simp [hh])
    rw [List.cons_append]
    simp only [splitOnChar, if_neg hc, ih h']

theorem generate_id_split (la lb : Str) (ha : '.' ∉ la) (hb : '.' ∉ lb) :
    splitOnChar '.' (generate_id la lb []) = [la, lb, []] := by
  unfold generate_id
  have hstep : la ++ ('.' :: lb) ++ ('.' :: ([] : Str)) =
      la ++ ('.' :: (lb ++ ('.' :: ([] : Str)))) := by
    simp
  rw [hstep]
  rw [splitOnChar_append_sep '.' la _ ha, splitOnChar_append_sep '.' lb _ hb]
  rfl

/-- C4: with no matching opportunity, `_generate_stats` still emits
exactly one `(key, StatEvent)` pair per suggestion, and each key's third
(topic) component is the empty string — a key of the form
`language.contributor.`; the absent opportunity raises no error. -/
theorem generate_stats_no_opportunity
    (suggestions : List SuggestionTranslateContent)
    (hdot : ∀ s ∈ suggestions,
      '.' ∉ s.language_code ∧ '.' ∉ s.author_id) :
    (generate_stats suggestions none).length = suggestions.length ∧
      (∀ p ∈ generate_stats suggestions none, ∃ s ∈ suggestions,
        p.1 = generate_id s.language_code s.author_id [] ∧
        splitOnChar '.' p.1 = [s.language_code, s.author_id, []]) ∧
      (∀ s ∈ suggestions, ∃ p ∈ generate_stats suggestions none,
        p.1 = generate_id s.language_code s.author_id []) := by
  refine ⟨by simp [generate_stats], ?_, ?_⟩
  · intro p hp
    simp only [generate_stats, List.mem_map] at hp
    obtain ⟨s, hs, hps⟩ := hp
    refine ⟨s, hs, ?_, ?_⟩
    · rw [← hps]
    · rw [← hps]
      exact generate_id_split _ _ (hdot s hs).1 (hdot s hs).2
  · intro s hs
    exact ⟨_, List.mem_map_of_mem _ hs, rfl⟩

/-- Witness for C4 at the single suggestion `sugA`. -/
theorem generate_stats_no_opportunity_witness :
    (generate_stats [sugA] none).length =
        ([sugA] : List SuggestionTranslateContent).length ∧
      (∀ p ∈ generate_stats [sugA] none, ∃ s ∈ [sugA],
        p.1 = generate_id s.language_code s.author_id [] ∧
        splitOnChar '.' p.1 = [s.language_code, s.author_id, []]) ∧
      (∀ s ∈ [sugA], ∃ p ∈ generate_stats [sugA] none,
        p.1 = generate_id s.language_code s.author_id []) :=
  generate_stats_no_opportunity [sugA] (by decide)

/-- C5 counterexample: a run that produces zero aggregate records emits no
job result at all — in particular no `SUCCESS 0` summary — because
`Count.Globally().without_defaults()` emits nothing on an empty collection
and the `x > 0` filter would drop a zero anyway. -/
theorem jobResults_zero_counterexample :
    jobResults [] = [] ∧ "SUCCESS 0" ∉ jobResults [] := by decide

/-- C5 (amended): the job-result stage emits exactly one `SUCCESS x`
summary when `x > 0` models were produced, and nothing at all when zero
models were produced — a zero count is not reported. -/
theorem jobResults_amended
    (models : List TranslationContributionStatsModel) :
    (0 < models.length →
      jobResults models = ["SUCCESS " ++ toString models.length]) ∧
      (models.length = 0 → jobResults models = []) := by
  constructor
  · intro h
    simp [jobResults, h]
  · intro h
    have hnil : models = [] := List.length_eq_zero.mp h
    subst hnil
    rfl

/-- Witness for the amended C5 at a one-model run and at an empty run. -/
theorem jobResults_amended_witness :
    (0 < ([mA] : List TranslationContributionStatsModel).length ∧
        jobResults [mA] =
          ["SUCCESS " ++
            toString ([mA] : List TranslationContributionStatsModel).length]) ∧
      (([] : List TranslationContributionStatsModel).length = 0 ∧
        jobResults ([] : List TranslationContributionStatsModel) = []) :=
  ⟨⟨by decide, (jobResults_amended [mA]).1 (by decide)⟩,
    ⟨rfl, (jobResults_amended []).2 rfl⟩⟩

theorem dedupFirst_append_dup (xs : List Str) (k : Str) :
    dedupFirst (xs ++ [k, k]) = dedupFirst (xs ++ [k]) := by
  induction xs with
  | nil => simp [dedupFirst]
  | cons x xs ih => simp [dedupFirst, ih]

/-- C6 counterexample: two opportunities share id `exp1` with different
topics, yet the run succeeds, produces output, and uses the first
opportunity's topic — output is identical to the run with the duplicate
dropped, and no error is surfaced. -/
theorem duplicate_opportunity_counterexample :
    oppA.id = oppB.id ∧ oppA.topic_id ≠ oppB.topic_id ∧
      pipelineEvents [sugA] [oppA, oppB] = pipelineEvents [sugA] [oppA] ∧
      (pipelineEvents [sugA] [oppA, oppB]).map Prod.fst =
        [generate_id "es".toList "u1".toList "t1".toList] := by
  decide

/-- C6 (amended): a duplicate opportunity id is silently collapsed during
the join — appending a second opportunity with an id already present
leaves the keyed event stream unchanged, because
`list(x['opportunity'][0])[0]` picks the first opportunity of the group;
no warning or error is surfaced and output is still written. -/
theorem duplicate_opportunity_first_wins
    (suggestions : List SuggestionTranslateContent)
    (o o' : ExplorationOpportunitySummary) (h : o.id = o'.id) :
    pipelineEvents suggestions [o, o'] = pipelineEvents suggestions [o] := by
  cases o' with
  | mk id2 t2 =>
    simp only [ExplorationOpportunitySummary.id] at h
    subst h
    simp only [pipelineEvents, List.map_cons, List.map_nil]
    rw [dedupFirst_append_dup]
    congr 1
    funext k
    congr 1
    by_cases hk : (o.id == k) = true <;>
      simp [List.filter, hk]

/-- Witness for the amended C6 at the concrete duplicate pair
`oppA`/`oppB`. -/
theorem duplicate_opportunity_first_wins_witness :
    oppA.id = oppB.id ∧
      pipelineEvents [sugA] [oppA, oppB] = pipelineEvents [sugA] [oppA] :=
  ⟨by decide,
    duplicate_opportunity_first_wins [sugA] oppA oppB (by decide)⟩
